import Mathlib

/-!
# The `mm_alloc` allocator (hw3/mm_alloc.c, hw3/mm_alloc.h)

Two shallow embeddings of `metadata_init`, `mm_malloc`, `mm_free` (and, in the
first, `mm_realloc`), and the properties of the block ledger they maintain.

The first embedding (`MmAlloc.State`) sees memory through a store of headers.

* A `struct metadata *` is `Option Nat`: `none` is `NULL`, `some a` is the
  address `a`.  A `void *` handed to or returned by the public functions is
  also an `Option Nat`; the field `current_block` holds a plain address.
* `heap` gives the `struct metadata` that is read when an address is
  dereferenced as a header, and `mem` the payload bytes touched by `memset` and
  `memcpy`.  Every field assignment of the source is one read-modify-write of
  `heap`, in the order of the source, so that two header pointers that are
  equal behave as in C.  This is what the C program does as long as the
  headers in play do not overlap each other byte-wise and no zero-filled range
  runs over one of them; it is used for general statements on paths where that
  holds, and for runs in which it holds.
* `sizeof(struct metadata)` depends on the ABI and is the parameter `h`
  (40 on LP64).  `meta + sizeof(struct metadata)` is arithmetic on a
  `struct metadata *`, so it advances by `h * h` bytes; `current_block + size`
  is arithmetic on a `void *` and advances by `size` bytes.
* `size_t` values are natural numbers: the sizes a ledger holds come from the
  bytes obtained from `sbrk`, and no property below is about wrap-around.
* `sbrk` is the environment: it succeeds while the break stays within `limit`
  and returns the old break, and fails (the `(void *) -1` of the source,
  here `none`) otherwise.
* The two loops of the source that follow `next` links take a fuel argument;
  `none` as a result means that the fuel ran out (for `mm_realloc` also that
  the call reads or writes through an address that does not exist).

The second embedding (`MmAlloc.Raw`) is over the bytes of one memory and is
used for the runs in which headers overlap or are zero-filled.
-/

namespace MmAlloc

/-- The block header `struct metadata` of mm_alloc.h. -/
structure metadata where
  size : Nat
  free : Bool
  prev : Option Nat
  next : Option Nat
  current_block : Nat
deriving DecidableEq, Repr

/-- The allocator's world: headers, payload bytes, the global `first_metadata`,
the program break and the bound up to which `sbrk` succeeds. -/
structure State where
  heap : Nat → metadata
  mem : Nat → Nat
  first_metadata : Option Nat
  brk : Nat
  limit : Nat

/-- Writing a whole header at address `a`. -/
def store (heap : Nat → metadata) (a : Nat) (r : metadata) : Nat → metadata :=
  fun x => if x = a then r else heap x

/-- The assignment `a->size = v`. -/
def set_size (heap : Nat → metadata) (a : Nat) (v : Nat) : Nat → metadata :=
  store heap a { heap a with size := v }

/-- The assignment `a->free = v`. -/
def set_free (heap : Nat → metadata) (a : Nat) (v : Bool) : Nat → metadata :=
  store heap a { heap a with free := v }

/-- The assignment `a->prev = v`. -/
def set_prev (heap : Nat → metadata) (a : Nat) (v : Option Nat) : Nat → metadata :=
  store heap a { heap a with prev := v }

/-- The assignment `a->next = v`. -/
def set_next (heap : Nat → metadata) (a : Nat) (v : Option Nat) : Nat → metadata :=
  store heap a { heap a with next := v }

/-- The assignment `a->current_block = v`. -/
def set_current_block (heap : Nat → metadata) (a : Nat) (v : Nat) : Nat → metadata :=
  store heap a { heap a with current_block := v }

/-- The call `memset(p, c, n)` on the payload bytes. -/
def memset (mem : Nat → Nat) (p c n : Nat) : Nat → Nat :=
  fun x => if p ≤ x ∧ x < p + n then c else mem x

/-- The call `memcpy(dst, src, n)` on the payload bytes. -/
def memcpy (mem : Nat → Nat) (dst src n : Nat) : Nat → Nat :=
  fun x => if dst ≤ x ∧ x < dst + n then mem (src + (x - dst)) else mem x

/-- The environment call `sbrk(n)`: the old break on success. -/
def sbrk (s : State) (n : Nat) : State × Option Nat :=
  if s.brk + n ≤ s.limit then ({ s with brk := s.brk + n }, some s.brk) else (s, none)

/-- The function `metadata_init(new_size, prev)`, lines 18-34. -/
def metadata_init (h : Nat) (s : State) (new_size : Nat) (prev : Option Nat) :
    State × Option Nat :=
  match sbrk s new_size with
  | (s1, none) => (s1, none)
  | (s1, some meta) =>
    let hp := set_size s1.heap meta new_size
    let hp := set_free hp meta false
    let hp := set_prev hp meta prev
    let hp := set_next hp meta none
    let hp := set_current_block hp meta (meta + h * h)
    let m := memset s1.mem (hp meta).current_block 0 (hp meta).size
    let hp := match prev with
      | some p => set_next hp p (some meta)
      | none => hp
    ({ s1 with heap := hp, mem := m }, some meta)

/-- Where the scan of `mm_malloc` ends: at a free header that is large enough,
or at the tail, after which the region grows. -/
inductive Scan where
  | reuse (meta : Nat)
  | grow (meta_head : Nat)
deriving DecidableEq, Repr

/-- The `while (true)` loop of `mm_malloc`, lines 49-86, up to the point where
it leaves the scan: the inner `while` and the `continue` of the outer one are
the two recursive calls, and every move to `meta_head->next` costs one unit of
fuel.  After the inner loop `meta_head` is free or the tail, so the outer loop
never starts a new round at the same header. -/
def mm_malloc_scan (heap : Nat → metadata) (size : Nat) : Nat → Nat → Option Scan
  | 0, _ => none
  | fuel + 1, meta_head =>
    match (heap meta_head).next with
    | some nxt =>
      if (heap meta_head).free = false then mm_malloc_scan heap size fuel nxt
      else if (heap meta_head).size ≥ size then some (Scan.reuse meta_head)
      else mm_malloc_scan heap size fuel nxt
    | none =>
      if (heap meta_head).free = true then
        if (heap meta_head).size ≥ size then some (Scan.reuse meta_head)
        else some (Scan.grow meta_head)
      else some (Scan.grow meta_head)

/-- Lines 55-71 of `mm_malloc`: the request is served from the free header
`meta`, which is split when more than a header is left over. -/
def mm_malloc_reuse (h : Nat) (s : State) (meta size : Nat) : State × Option Nat :=
  let size_diff := (s.heap meta).size - size
  let hp := set_free s.heap meta false
  if size_diff > h then
    let hp := set_size hp meta size
    let split_meta := (hp meta).current_block + size
    let hp := set_next hp split_meta (hp meta).next
    let hp := set_next hp meta (some split_meta)
    let hp := set_prev hp split_meta (some meta)
    let hp := set_free hp split_meta true
    let hp := set_size hp split_meta (size_diff - h)
    let hp := set_current_block hp split_meta (split_meta + h * h)
    let m := memset s.mem (hp split_meta).current_block 0 (size_diff - h)
    let m := memset m (hp meta).current_block 0 (hp meta).size
    ({ s with heap := hp, mem := m }, some (hp meta).current_block)
  else
    let m := memset s.mem (hp meta).current_block 0 (hp meta).size
    ({ s with heap := hp, mem := m }, some (hp meta).current_block)

/-- The function `mm_malloc(size)`, lines 36-88. -/
def mm_malloc (h : Nat) (fuel : Nat) (s : State) (size : Nat) :
    Option (State × Option Nat) :=
  if size = 0 then some (s, none)
  else
    let new_size := h + size
    match s.first_metadata with
    | none =>
      match metadata_init h s new_size none with
      | (s1, none) => some ({ s1 with first_metadata := none }, none)
      | (s1, some m) =>
        some ({ s1 with first_metadata := some m }, some (s1.heap m).current_block)
    | some first =>
      match mm_malloc_scan s.heap size fuel first with
      | none => none
      | some (Scan.reuse meta) => some (mm_malloc_reuse h s meta size)
      | some (Scan.grow meta_head) =>
        match metadata_init h s new_size (some meta_head) with
        | (s1, none) => some (s1, none)
        | (s1, some meta) =>
          let m := memset s1.mem (s1.heap meta).current_block 0 size
          some ({ s1 with mem := m }, some (s1.heap meta).current_block)

/-- The search loop of `mm_free`, lines 112-122: `some (some meta)` is the first
header on the chain with `current_block == ptr`, `some none` is the early
`return` at the tail. -/
def mm_free_find (heap : Nat → metadata) (ptr : Nat) : Nat → Nat → Option (Option Nat)
  | 0, _ => none
  | fuel + 1, meta =>
    if (heap meta).current_block = ptr then some (some meta)
    else
      match (heap meta).next with
      | some nxt => mm_free_find heap ptr fuel nxt
      | none => some none

/-- The flag `prev_free` of `mm_free`, lines 129-133. -/
def prev_free (heap : Nat → metadata) (meta : Nat) : Bool :=
  match (heap meta).prev with
  | some p => (heap p).free
  | none => false

/-- The flag `next_free` of `mm_free`, lines 134-138. -/
def next_free (heap : Nat → metadata) (meta : Nat) : Bool :=
  match (heap meta).next with
  | some n => (heap n).free
  | none => false

/-- The statement `if (meta->next != NULL) meta->next->prev = meta;`. -/
def relink_next (heap : Nat → metadata) (meta : Nat) : Nat → metadata :=
  match (heap meta).next with
  | some n => set_prev heap n (some meta)
  | none => heap

/-- Lines 142-172 of `mm_free`: the header `meta` is marked free and merged
with the neighbours its `prev` and `next` fields point to, when they are free.
A flag that is set comes from a non-null link, so the `match` arms for a null
link are never taken. -/
def mm_free_coalesce (h : Nat) (heap : Nat → metadata) (meta : Nat) : Nat → metadata :=
  let freeing_block_size := (heap meta).size
  if prev_free heap meta = true ∧ next_free heap meta = true then
    match (heap meta).prev, (heap meta).next with
    | some p, some n =>
      let top_block_size := (heap n).size
      let bottom_block_size := (heap p).size
      let hp := set_next heap p (heap n).next
      let hp := relink_next hp p
      let hp := set_size hp p
        (freeing_block_size + h + bottom_block_size + h + top_block_size)
      set_free hp p true
    | _, _ => heap
  else if next_free heap meta = true then
    match (heap meta).next with
    | some n =>
      let top_block_size := (heap n).size
      let hp := set_next heap meta (heap n).next
      let hp := relink_next hp meta
      let hp := set_size hp meta (freeing_block_size + h + top_block_size)
      set_free hp meta true
    | none => heap
  else if prev_free heap meta = true then
    match (heap meta).prev with
    | some p =>
      let bottom_block_size := (heap p).size
      let hp := set_next heap p (heap meta).next
      let hp := relink_next hp p
      let hp := set_size hp p (freeing_block_size + h + bottom_block_size)
      set_free hp p true
    | none => heap
  else set_free heap meta true

/-- The function `mm_free(ptr)`, lines 103-173. -/
def mm_free (h : Nat) (fuel : Nat) (s : State) (ptr : Option Nat) : Option State :=
  match ptr with
  | none => some s
  | some p =>
    match s.first_metadata with
    | none => some s
    | some first =>
      match mm_free_find s.heap p fuel first with
      | none => none
      | some none => some s
      | some (some meta) => some { s with heap := mm_free_coalesce h s.heap meta }

/-- The function `mm_realloc(ptr, size)`, lines 91-101.  The header is read at
`(struct metadata *) ptr - sizeof(struct metadata)`, that is `h * h` bytes
below `ptr`; no result is given when that address does not exist or when
`memcpy` would write through `NULL`. -/
def mm_realloc (h : Nat) (fuel : Nat) (s : State) (ptr : Option Nat) (size : Nat) :
    Option (State × Option Nat) :=
  match ptr with
  | none => none
  | some p =>
    if p < h * h then none
    else
      let meta := p - h * h
      let len := (s.heap meta).size
      match mm_free h fuel s ptr with
      | none => none
      | some s1 =>
        match mm_malloc h fuel s1 size with
        | none => none
        | some (s2, new_place) =>
          let len := if len > size then size else len
          match new_place with
          | some q => some ({ s2 with mem := memcpy s2.mem q p len }, none)
          | none => if len = 0 then some (s2, none) else none

/-- The header every address holds before the allocator has written to it. -/
def blank : metadata := ⟨0, false, none, none, 0⟩

/-- The empty allocator: `first_metadata == NULL`, the break at `base`. -/
def empty (base limit : Nat) : State := ⟨fun _ => blank, fun _ => 0, none, base, limit⟩

/-- The headers reachable from `p` through `next` links, in chain order;
`none` when the chain is longer than the fuel. -/
def ledger (heap : Nat → metadata) : Nat → Option Nat → Option (List Nat)
  | _, none => some []
  | 0, some _ => none
  | fuel + 1, some a => (ledger heap fuel (heap a).next).map (fun l => a :: l)

/-- A call of the client. -/
inductive Call where
  | malloc (size : Nat)
  | free (ptr : Option Nat)
deriving DecidableEq, Repr

/-- The allocator together with the client's view of it: the addresses the
client holds, the value each `mm_malloc` returned (latest first) and the
arguments of the `metadata_init` calls whose `sbrk` succeeded. -/
structure Client where
  st : State
  held : List Nat
  returned : List (Option Nat)
  grown : List Nat

/-- One call of the client. -/
def Client.step (h fuel : Nat) (c : Client) : Call → Option Client
  | Call.malloc size =>
    match mm_malloc h fuel c.st size with
    | none => none
    | some (s1, r) =>
      some { st := s1,
             held := match r with
               | some p => p :: c.held
               | none => c.held,
             returned := r :: c.returned,
             grown := if s1.brk = c.st.brk then c.grown else (s1.brk - c.st.brk) :: c.grown }
  | Call.free ptr =>
    match mm_free h fuel c.st ptr with
    | none => none
    | some s1 =>
      some { c with st := s1,
                    held := match ptr with
                      | some p => c.held.filter (fun q => q ≠ p)
                      | none => c.held }

/-- A sequence of calls, from left to right. -/
def Client.run (h fuel : Nat) : Client → List Call → Option Client
  | c, [] => some c
  | c, k :: ks =>
    match Client.step h fuel c k with
    | none => none
    | some c1 => Client.run h fuel c1 ks

/-- The client of the empty allocator. -/
def Client.init (base limit : Nat) : Client := ⟨empty base limit, [], [], []⟩

/-- The ledger as the client of a debugger would see it: the address and the
header of every record reachable from `first_metadata`, in chain order. -/
def records (fuel : Nat) (s : State) : Option (List (Nat × metadata)) :=
  (ledger s.heap fuel s.first_metadata).map (fun l => l.map (fun a => (a, s.heap a)))

/-- The bytes the ledger accounts for: header plus `size`, over all records. -/
def ledger_bytes (h : Nat) (rs : List (Nat × metadata)) : Nat :=
  (rs.map (fun r => h + r.2.size)).sum

/-- An address is owned and occupied when some record of the ledger has it as
its `current_block` and is not free. -/
def occupied (rs : List (Nat × metadata)) (p : Nat) : Bool :=
  rs.any (fun r => decide (r.2.current_block = p) && !r.2.free)

/-! ## The ledger as a chain of headers -/

/-- The `next` links lead from the pointer `p` through the headers `l`, in
order, to the pointer `q`. -/
def Seg (heap : Nat → metadata) : Option Nat → List Nat → Option Nat → Prop
  | p, [], q => p = q
  | p, a :: l, q => p = some a ∧ Seg heap (heap a).next l q

/-- The headers `l` are the whole ledger of `s`: the chain from
`first_metadata` that ends in `NULL`.  Such a chain is finite and acyclic. -/
def Ledger (s : State) (l : List Nat) : Prop :=
  Seg s.heap s.first_metadata l none

/-- The header at `a` can serve a request of `size` bytes: it is free and
`size` is at most its `size` field (the test of lines 53-54). -/
def fits (heap : Nat → metadata) (size a : Nat) : Prop :=
  (heap a).free = true ∧ size ≤ (heap a).size

/-- The allocator after `mm_malloc(200)`, `mm_malloc(8)`, `mm_free(411200)`
with `h = 40` and the heap at `409600`: a free record of 240 bytes followed by
an occupied one of 48 bytes. -/
def demo : State :=
  ⟨store (store (fun _ => blank) 409600 ⟨240, true, none, some 409840, 411200⟩)
      409840 ⟨48, false, some 409600, none, 411440⟩,
    fun _ => 0, some 409600, 409888, 4096000⟩

/-- The state `demo` with the break at the limit of `sbrk`. -/
def demo_full : State := { demo with limit := 409888 }

namespace Raw

/-- The allocator's world: the bytes of memory, the global `first_metadata`,
the program break and the bound up to which `sbrk` succeeds. -/
structure State where
  mem : Nat
  first_metadata : Nat
  brk : Nat
  limit : Nat

/-- The value of `sizeof(struct metadata)` on LP64. -/
def sizeof_metadata : Nat := 40

/-- The byte at address `a`. -/
def load8 (m a : Nat) : Nat := (m >>> (8 * a)) % 2 ^ 8

/-- Writing the byte `v` at address `a`. -/
def store8 (m a v : Nat) : Nat :=
  m - (load8 m a <<< (8 * a)) + ((v % 2 ^ 8) <<< (8 * a))

/-- The 64-bit little-endian value in the bytes `a .. a + 7`. -/
def load64 (m a : Nat) : Nat := (m >>> (8 * a)) % 2 ^ 64

/-- Writing the 64-bit value `v` to the bytes `a .. a + 7`. -/
def store64 (m a v : Nat) : Nat :=
  m - (load64 m a <<< (8 * a)) + ((v % 2 ^ 64) <<< (8 * a))

/-- The field `p->size`. -/
def get_size (m p : Nat) : Nat := load64 m p

/-- The field `p->free`, a `bool` of one byte: `1` is `true`, `0` is `false`. -/
def get_free (m p : Nat) : Nat := load8 m (p + 8)

/-- The field `p->prev`. -/
def get_prev (m p : Nat) : Nat := load64 m (p + 16)

/-- The field `p->next`. -/
def get_next (m p : Nat) : Nat := load64 m (p + 24)

/-- The field `p->current_block`. -/
def get_current_block (m p : Nat) : Nat := load64 m (p + 32)

/-- The assignment `p->size = v`. -/
def set_size (m p v : Nat) : Nat := store64 m p v

/-- The assignment `p->free = v`. -/
def set_free (m p v : Nat) : Nat := store8 m (p + 8) v

/-- The assignment `p->prev = v`. -/
def set_prev (m p v : Nat) : Nat := store64 m (p + 16) v

/-- The assignment `p->next = v`. -/
def set_next (m p v : Nat) : Nat := store64 m (p + 24) v

/-- The assignment `p->current_block = v`. -/
def set_current_block (m p v : Nat) : Nat := store64 m (p + 32) v

/-- The call `memset(p, c, n)`: the bytes `p .. p + n - 1` become `c`. -/
def memset (m p c n : Nat) : Nat :=
  m % (1 <<< (8 * p)) + ((c % 2 ^ 8 * (((1 <<< (8 * n)) - 1) / 255)) <<< (8 * p)) +
    ((m >>> (8 * (p + n))) <<< (8 * (p + n)))

/-- The environment call `sbrk(n)`: the old break on success. -/
def sbrk (s : State) (n : Nat) : State × Option Nat :=
  if s.brk + n ≤ s.limit then ({ s with brk := s.brk + n }, some s.brk) else (s, none)

/-- The function `metadata_init(new_size, prev)`, lines 18-34; the result `0`
is `NULL`. -/
def metadata_init (s : State) (new_size prev : Nat) : State × Nat :=
  match sbrk s new_size with
  | (s1, none) => (s1, 0)
  | (s1, some meta) =>
    let m := set_size s1.mem meta new_size
    let m := set_free m meta 0
    let m := set_prev m meta prev
    let m := set_next m meta 0
    let m := set_current_block m meta (meta + sizeof_metadata * sizeof_metadata)
    let m := memset m (get_current_block m meta) 0 (get_size m meta)
    let m := if prev ≠ 0 then set_next m prev meta else m
    ({ s1 with mem := m }, meta)

/-- Where the scan of `mm_malloc` ends. -/
inductive Scan where
  | reuse (meta : Nat)
  | grow (meta_head : Nat)
deriving DecidableEq, Repr

/-- The `while (true)` loop of `mm_malloc`, lines 49-86, up to the point where
it leaves the scan; every round costs one unit of fuel. -/
def mm_malloc_scan (m size : Nat) : Nat → Nat → Option Scan
  | 0, _ => none
  | fuel + 1, meta_head =>
    if get_next m meta_head ≠ 0 ∧ get_free m meta_head = 0 then
      mm_malloc_scan m size fuel (get_next m meta_head)
    else if get_free m meta_head = 1 then
      if get_size m meta_head ≥ size then some (Scan.reuse meta_head)
      else if get_next m meta_head ≠ 0 then
        mm_malloc_scan m size fuel (get_next m meta_head)
      else some (Scan.grow meta_head)
    else if get_next m meta_head = 0 then some (Scan.grow meta_head)
    else mm_malloc_scan m size fuel meta_head

/-- Lines 55-71 of `mm_malloc`: the request is served from the header `meta`. -/
def mm_malloc_reuse (s : State) (meta size : Nat) : State × Nat :=
  let size_diff := get_size s.mem meta - size
  let m := set_free s.mem meta 0
  if size_diff > sizeof_metadata then
    let m := set_size m meta size
    let split_meta := get_current_block m meta + size
    let m := set_next m split_meta (get_next m meta)
    let m := set_next m meta split_meta
    let m := set_prev m split_meta meta
    let m := set_free m split_meta 1
    let m := set_size m split_meta (size_diff - sizeof_metadata)
    let m := set_current_block m split_meta (split_meta + sizeof_metadata * sizeof_metadata)
    let m := memset m (get_current_block m split_meta) 0 (size_diff - sizeof_metadata)
    let m := memset m (get_current_block m meta) 0 (get_size m meta)
    ({ s with mem := m }, get_current_block m meta)
  else
    let m := memset m (get_current_block m meta) 0 (get_size m meta)
    ({ s with mem := m }, get_current_block m meta)

/-- The function `mm_malloc(size)`, lines 36-88. -/
def mm_malloc (fuel : Nat) (s : State) (size : Nat) : Option (State × Nat) :=
  if size = 0 then some (s, 0)
  else
    let new_size := (sizeof_metadata + size) % 2 ^ 64
    if s.first_metadata = 0 then
      match metadata_init s new_size 0 with
      | (s1, meta) =>
        if meta = 0 then some ({ s1 with first_metadata := 0 }, 0)
        else some ({ s1 with first_metadata := meta }, get_current_block s1.mem meta)
    else
      match mm_malloc_scan s.mem size fuel s.first_metadata with
      | none => none
      | some (Scan.reuse meta) => some (mm_malloc_reuse s meta size)
      | some (Scan.grow meta_head) =>
        match metadata_init s new_size meta_head with
        | (s1, meta) =>
          if meta = 0 then some (s1, 0)
          else
            let m := memset s1.mem (get_current_block s1.mem meta) 0 size
            some ({ s1 with mem := m }, get_current_block m meta)

/-- The search loop of `mm_free`, lines 112-122; the result `0` is the early
`return` at the tail. -/
def mm_free_find (m ptr : Nat) : Nat → Nat → Option Nat
  | 0, _ => none
  | fuel + 1, meta =>
    if get_current_block m meta = ptr then some meta
    else if get_next m meta ≠ 0 then mm_free_find m ptr fuel (get_next m meta)
    else some 0

/-- The statement `if (meta->next != NULL) meta->next->prev = meta;`. -/
def relink_next (m meta : Nat) : Nat :=
  if get_next m meta ≠ 0 then set_prev m (get_next m meta) meta else m

/-- Lines 126-172 of `mm_free`. -/
def mm_free_coalesce (m meta : Nat) : Nat :=
  let prev_free : Bool := get_prev m meta ≠ 0 ∧ get_free m (get_prev m meta) = 1
  let next_free : Bool := get_next m meta ≠ 0 ∧ get_free m (get_next m meta) = 1
  let freeing_block_size := get_size m meta
  if prev_free ∧ next_free then
    let top_block_size := get_size m (get_next m meta)
    let bottom_block_size := get_size m (get_prev m meta)
    let m := set_next m (get_prev m meta) (get_next m (get_next m meta))
    let meta := get_prev m meta
    let m := relink_next m meta
    let m := set_size m meta
      ((freeing_block_size + sizeof_metadata + bottom_block_size + sizeof_metadata
        + top_block_size) % 2 ^ 64)
    set_free m meta 1
  else if next_free then
    let top_block_size := get_size m (get_next m meta)
    let m := set_next m meta (get_next m (get_next m meta))
    let m := relink_next m meta
    let m := set_size m meta ((freeing_block_size + sizeof_metadata + top_block_size) % 2 ^ 64)
    set_free m meta 1
  else if prev_free then
    let bottom_block_size := get_size m (get_prev m meta)
    let m := set_next m (get_prev m meta) (get_next m meta)
    let meta := get_prev m meta
    let m := relink_next m meta
    let m := set_size m meta
      ((freeing_block_size + sizeof_metadata + bottom_block_size) % 2 ^ 64)
    set_free m meta 1
  else set_free m meta 1

/-- The function `mm_free(ptr)`, lines 103-173. -/
def mm_free (fuel : Nat) (s : State) (ptr : Nat) : Option State :=
  if ptr = 0 then some s
  else if s.first_metadata = 0 then some s
  else
    match mm_free_find s.mem ptr fuel s.first_metadata with
    | none => none
    | some meta =>
      if meta = 0 then some s
      else some { s with mem := mm_free_coalesce s.mem meta }

/-- The empty allocator: all bytes zero, `first_metadata == NULL`. -/
def empty (base limit : Nat) : State := ⟨0, 0, base, limit⟩

/-- A call of the client. -/
inductive Call where
  | malloc (size : Nat)
  | free (ptr : Nat)
deriving DecidableEq, Repr

/-- A sequence of calls, from left to right, with the values the `mm_malloc`
calls returned, latest first. -/
def run (fuel : Nat) : State × List Nat → List Call → Option (State × List Nat)
  | c, [] => some c
  | (s, returned), Call.malloc size :: ks =>
    match mm_malloc fuel s size with
    | none => none
    | some (s1, r) => run fuel (s1, r :: returned) ks
  | (s, returned), Call.free ptr :: ks =>
    match mm_free fuel s ptr with
    | none => none
    | some s1 => run fuel (s1, returned) ks

/-- A header as it is read from memory. -/
structure Header where
  addr : Nat
  size : Nat
  free : Nat
  prev : Nat
  next : Nat
  current_block : Nat
deriving DecidableEq, Repr

/-- The headers met from `p` along the `next` fields, `fuel` of them at most. -/
def chain (m : Nat) : Nat → Nat → List Header
  | 0, _ => []
  | fuel + 1, p =>
    if p = 0 then []
    else
      ⟨p, get_size m p, get_free m p, get_prev m p, get_next m p, get_current_block m p⟩
        :: chain m fuel (get_next m p)

/-- The ledger after a run: the headers reachable from `first_metadata`. -/
def ledger (fuel : Nat) (r : State × List Nat) : List Header :=
  chain r.1.mem fuel r.1.first_metadata

end Raw

/-! ## The code on concrete call sequences

All runs below use the LP64 header size `h = 40`, a heap that starts at the page
boundary `409600` and an `sbrk` that succeeds up to address `4096000`.  Headers
and payloads of these runs all lie between `409600` and `413696`. -/

/-- C2 (conservation), checked on the code: after the single call
`mm_malloc(1)` on the empty allocator `sbrk` has been asked for 41 bytes, but
`metadata_init` stores `new_size` (header included) in `size`, so the ledger
accounts for `40 + 41 = 81` bytes. -/
theorem ledger_bytes_exceed_grown :
    (Client.run 40 4 (Client.init 409600 4096000) [Call.malloc 1]).map
        (fun c => (c.grown, records 4 c.st, (records 4 c.st).map (ledger_bytes 40))) =
      some ([41], some [(409600, ⟨41, false, none, none, 411200⟩)], some 81) := by
  decide

/-- C10 (doubly-linked consistency), checked on the code: `mm_malloc(200)`,
`mm_malloc(8)`, `mm_free` of the first block, `mm_malloc(8)` splits the first
record; the remainder at `411208` is followed by the record at `409840`, whose
`prev` is still the split record `409600` and not the remainder. -/
theorem split_leaves_stale_prev :
    (Client.run 40 8 (Client.init 409600 4096000)
        [Call.malloc 200, Call.malloc 8, Call.free (some 411200), Call.malloc 8]).map
        (fun c => records 8 c.st) =
      some (some [(409600, ⟨8, false, none, some 411208, 411200⟩),
                  (411208, ⟨192, true, some 409600, some 409840, 412808⟩),
                  (409840, ⟨48, false, some 409600, none, 411440⟩)]) := by
  decide

/-- C1 (held addresses are the occupied records), checked on the code:
`mm_malloc(200)`, `mm_malloc(8)`, `mm_free(411200)`, `mm_malloc(8)` splits the
first record and leaves the third record's `prev` pointing at it; the remainder
is handed out as `412808`, the first block is released, and releasing the third
block `411440` then merges it into the record its stale `prev` names, which
cuts the record of the held address `412808` out of the ledger. -/
theorem held_record_spliced_out :
    (Client.run 40 8 (Client.init 409600 4096000)
        [Call.malloc 200, Call.malloc 8, Call.free (some 411200), Call.malloc 8,
         Call.malloc 192, Call.free (some 411200)]).map
        (fun c => (c.held, (records 8 c.st).map (fun rs => occupied rs 412808))) =
      some ([412808, 411440], some true) ∧
    (Client.run 40 8 (Client.init 409600 4096000)
        [Call.malloc 200, Call.malloc 8, Call.free (some 411200), Call.malloc 8,
         Call.malloc 192, Call.free (some 411200), Call.free (some 411440)]).map
        (fun c => (c.held, records 8 c.st,
          (records 8 c.st).map (fun rs => occupied rs 412808))) =
      some ([412808], some [(409600, ⟨96, true, none, none, 411200⟩)], some false) := by
  decide

/-- C6 (double free), checked on the code: after `mm_malloc(200)`,
`mm_malloc(8)`, `mm_free(411200)` and the split by `mm_malloc(8)`,
`mm_free(411440)` and `mm_free(411200)` leave two free records next to each
other; `mm_free(411200)` once more finds the record already free and merges it
with its successor again. -/
theorem second_free_merges_again :
    (Client.run 40 8 (Client.init 409600 4096000)
        [Call.malloc 200, Call.malloc 8, Call.free (some 411200), Call.malloc 8,
         Call.free (some 411440), Call.free (some 411200)]).map
        (fun c => records 8 c.st) =
      some (some [(409600, ⟨240, true, none, some 409840, 411200⟩),
                  (409840, ⟨48, true, some 409600, none, 411440⟩)]) ∧
    (Client.run 40 8 (Client.init 409600 4096000)
        [Call.malloc 200, Call.malloc 8, Call.free (some 411200), Call.malloc 8,
         Call.free (some 411440), Call.free (some 411200),
         Call.free (some 411200)]).map
        (fun c => records 8 c.st) =
      some (some [(409600, ⟨328, true, none, none, 411200⟩)]) := by
  decide

/-- C8 (realloc), checked on the code: `p = mm_malloc(5)` on the empty
allocator is `411200`, and `mm_realloc(p, 20)` returns `NULL`. -/
theorem mm_realloc_returns_null :
    (mm_malloc 40 4 (empty 409600 4096000) 5).map Prod.snd = some (some 411200) ∧
    ((mm_malloc 40 4 (empty 409600 4096000) 5).bind
        (fun r => mm_realloc 40 4 r.1 r.2 20)).map Prod.snd = some none := by
  decide

/-- C3 (first fit leaves the earlier records alone), checked on the code: three
blocks of 8 bytes and one of 200 are allocated, the first three are released
and merge into one record of 224 bytes, `mm_malloc(152)` splits it and writes
the remainder's header at `411352`, `mm_malloc(32)` hands the remainder out as
`412952`, and `mm_free(411344)` releases the block of 200.  The ledger is then
`409600` (occupied), `411352` (occupied), `409744` (free, 240 bytes).  The call
`mm_malloc(8)` is served from `409744`, the first free record that is large
enough, and returns `411344`, but the header it writes for the split is
`411344 + 8 = 411352`: the record before the served one is rewritten (free,
192 bytes, `next == NULL`), although its block `412952` is still held.  The
last two parts are the same run on the bytes of the heap. -/
theorem split_rewrites_earlier_record :
    (Client.run 40 8 (Client.init 409600 4096000)
        [Call.malloc 8, Call.malloc 8, Call.malloc 8, Call.malloc 200,
         Call.free (some 411200), Call.free (some 411248), Call.free (some 411296),
         Call.malloc 152, Call.malloc 32, Call.free (some 411344)]).map
        (fun c => (c.held, records 8 c.st)) =
      some ([412952, 411200],
        some [(409600, ⟨152, false, none, some 411352, 411200⟩),
              (411352, ⟨32, false, some 409600, some 409744, 412952⟩),
              (409744, ⟨240, true, some 409600, none, 411344⟩)]) ∧
    (Client.run 40 8 (Client.init 409600 4096000)
        [Call.malloc 8, Call.malloc 8, Call.malloc 8, Call.malloc 200,
         Call.free (some 411200), Call.free (some 411248), Call.free (some 411296),
         Call.malloc 152, Call.malloc 32, Call.free (some 411344),
         Call.malloc 8]).map
        (fun c => (c.returned.head?, c.held, c.st.heap 411352, c.st.brk)) =
      some (some (some 411344), [411344, 412952, 411200],
        ⟨192, true, some 409744, none, 412952⟩, 409984) ∧
    (Raw.run 8 (Raw.empty 409600 4096000, [])
        [Raw.Call.malloc 8, Raw.Call.malloc 8, Raw.Call.malloc 8, Raw.Call.malloc 200,
         Raw.Call.free 411200, Raw.Call.free 411248, Raw.Call.free 411296,
         Raw.Call.malloc 152, Raw.Call.malloc 32, Raw.Call.free 411344]).map
        (Raw.ledger 8) =
      some [⟨409600, 152, 0, 0, 411352, 411200⟩, ⟨411352, 32, 0, 409600, 409744, 412952⟩,
            ⟨409744, 240, 1, 409600, 0, 411344⟩] ∧
    (Raw.run 8 (Raw.empty 409600 4096000, [])
        [Raw.Call.malloc 8, Raw.Call.malloc 8, Raw.Call.malloc 8, Raw.Call.malloc 200,
         Raw.Call.free 411200, Raw.Call.free 411248, Raw.Call.free 411296,
         Raw.Call.malloc 152, Raw.Call.malloc 32, Raw.Call.free 411344,
         Raw.Call.malloc 8]).map
        (fun r => (r.2.head?, r.1.brk, Raw.ledger 8 r)) =
      some (some 411344, 409984,
           [⟨409600, 152, 0, 0, 411352, 411200⟩, ⟨411352, 192, 1, 409744, 0, 412952⟩]) := by
  decide

/-- C4 (no split keeps the ledger), checked on the bytes: nine blocks of 200
bytes are allocated and the first is released.  `mm_malloc(200)` is served from
the first record, whose size is 240: the slack is `40 <= h`, so there is no
split, the record keeps size 240 and becomes occupied, and `411200` is
returned.  Its zero-fill `memset(411200, 0, 240)` covers the header at `411280`
of the eighth record, so the ledger has eight records afterwards instead of
nine, the last one with all fields zero. -/
theorem reused_block_wipes_header :
    (Raw.run 12 (Raw.empty 409600 4096000, [])
        [Raw.Call.malloc 200, Raw.Call.malloc 200, Raw.Call.malloc 200,
         Raw.Call.malloc 200, Raw.Call.malloc 200, Raw.Call.malloc 200,
         Raw.Call.malloc 200, Raw.Call.malloc 200, Raw.Call.malloc 200,
         Raw.Call.free 411200]).map (Raw.ledger 12) =
      some [⟨409600, 240, 1, 0, 409840, 411200⟩, ⟨409840, 240, 0, 409600, 410080, 411440⟩,
            ⟨410080, 240, 0, 409840, 410320, 411680⟩, ⟨410320, 240, 0, 410080, 410560, 411920⟩,
            ⟨410560, 240, 0, 410320, 410800, 412160⟩, ⟨410800, 240, 0, 410560, 411040, 412400⟩,
            ⟨411040, 240, 0, 410800, 411280, 412640⟩, ⟨411280, 240, 0, 411040, 411520, 412880⟩,
            ⟨411520, 240, 0, 411280, 0, 413120⟩] ∧
    (Raw.run 12 (Raw.empty 409600 4096000, [])
        [Raw.Call.malloc 200, Raw.Call.malloc 200, Raw.Call.malloc 200,
         Raw.Call.malloc 200, Raw.Call.malloc 200, Raw.Call.malloc 200,
         Raw.Call.malloc 200, Raw.Call.malloc 200, Raw.Call.malloc 200,
         Raw.Call.free 411200, Raw.Call.malloc 200]).map
        (fun r => (r.2.head?, Raw.ledger 12 r)) =
      some (some 411200,
           [⟨409600, 240, 0, 0, 409840, 411200⟩, ⟨409840, 240, 0, 409600, 410080, 411440⟩,
            ⟨410080, 240, 0, 409840, 410320, 411680⟩, ⟨410320, 240, 0, 410080, 410560, 411920⟩,
            ⟨410560, 240, 0, 410320, 410800, 412160⟩, ⟨410800, 240, 0, 410560, 411040, 412400⟩,
            ⟨411040, 240, 0, 410800, 411280, 412640⟩, ⟨411280, 0, 0, 0, 0, 0⟩]) := by
  decide

/-- C5 (coalescing keeps the chain consistent), checked on the bytes:
`mm_malloc(400)`, `mm_free(411200)`, `mm_malloc(153)` (a split, remainder header
at `411353`), `mm_malloc(1249)` and `mm_malloc(300)` give the ledger `409600`,
`411353`, `410040`, `411329` with consistent `next` and `prev` links, ending in
`NULL`.  The header at `411329` was written at the break and shares its bytes
`411353 .. 411360` (its `next`) with the `size` of the header at `411353`.
`mm_free(411640)` releases the occupied record `410040`, whose predecessor
`411353` is free; the merge stores the size 1329 in the predecessor, and with
it the `next` of `411329` becomes `1329`: the chain no longer ends in `NULL`
(the last header listed is what a traversal would read at address `1329`,
outside the heap). -/
theorem merge_breaks_chain :
    (Raw.run 8 (Raw.empty 409600 4096000, [])
        [Raw.Call.malloc 400, Raw.Call.free 411200, Raw.Call.malloc 153,
         Raw.Call.malloc 1249, Raw.Call.malloc 300]).map
        (fun r => (r.2, Raw.ledger 8 r)) =
      some ([412929, 411640, 411200, 411200],
           [⟨409600, 153, 0, 0, 411353, 411200⟩, ⟨411353, 0, 1, 409600, 410040, 412953⟩,
            ⟨410040, 1289, 0, 411353, 411329, 411640⟩,
            ⟨411329, 340, 0, 410040, 0, 412929⟩]) ∧
    (Raw.run 8 (Raw.empty 409600 4096000, [])
        [Raw.Call.malloc 400, Raw.Call.free 411200, Raw.Call.malloc 153,
         Raw.Call.malloc 1249, Raw.Call.malloc 300, Raw.Call.free 411640]).map
        (Raw.ledger 8) =
      some [⟨409600, 153, 0, 0, 411353, 411200⟩, ⟨411353, 1329, 1, 409600, 411329, 412953⟩,
            ⟨411329, 340, 0, 411353, 1329, 412929⟩, ⟨1329, 0, 0, 0, 0, 0⟩] := by
  decide

/-! ## Reading a header after an assignment -/

@[simp] theorem store_apply (heap : Nat → metadata) (a x : Nat) (r : metadata) :
    store heap a r x = if x = a then r else heap x := rfl

@[simp] theorem set_size_apply (heap : Nat → metadata) (a x : Nat) (v : Nat) :
    set_size heap a v x = if x = a then { heap a with size := v } else heap x := rfl

@[simp] theorem set_free_apply (heap : Nat → metadata) (a x : Nat) (v : Bool) :
    set_free heap a v x = if x = a then { heap a with free := v } else heap x := rfl

@[simp] theorem set_prev_apply (heap : Nat → metadata) (a x : Nat) (v : Option Nat) :
    set_prev heap a v x = if x = a then { heap a with prev := v } else heap x := rfl

@[simp] theorem set_next_apply (heap : Nat → metadata) (a x : Nat) (v : Option Nat) :
    set_next heap a v x = if x = a then { heap a with next := v } else heap x := rfl

@[simp] theorem set_current_block_apply (heap : Nat → metadata) (a x : Nat) (v : Nat) :
    set_current_block heap a v x =
      if x = a then { heap a with current_block := v } else heap x := rfl

/-! ## Chains -/

theorem seg_next_some (heap : Nat → metadata) (pre post : List Nat) (t : Nat)
    (p : Option Nat) (hs : Seg heap p (pre ++ t :: post) none) :
    ∃ b, p = some b ∧ Seg heap (some b) (pre ++ t :: post) none := by
  cases pre with
  | nil => exact ⟨t, hs.1, rfl, hs.2⟩
  | cons a pre => exact ⟨a, hs.1, rfl, hs.2⟩

theorem scan_grow (heap : Nat → metadata) (size : Nat) (l : List Nat) (tl : Nat)
    (a0 fuel : Nat) (hs : Seg heap (some a0) (l ++ [tl]) none)
    (hno : ∀ a ∈ l ++ [tl], ¬ fits heap size a) (hfuel : l.length < fuel) :
    mm_malloc_scan heap size fuel a0 = some (Scan.grow tl) := by
  induction l generalizing a0 fuel with
  | nil =>
    have h0 : a0 = tl := Option.some.inj hs.1
    subst h0
    obtain ⟨f, rfl⟩ : ∃ f, fuel = f + 1 := ⟨fuel - 1, by simp at hfuel; omega⟩
    have hn : (heap a0).next = none := hs.2
    have hna : ¬ fits heap size a0 := hno a0 (by simp)
    unfold mm_malloc_scan
    rw [hn]
    by_cases hf : (heap a0).free = true
    · have hsz : ¬ size ≤ (heap a0).size := fun hle => hna ⟨hf, hle⟩
      simp [hf, hsz]
    · simp [hf]
  | cons a l ih =>
    have h0 : a0 = a := Option.some.inj hs.1
    subst h0
    obtain ⟨f, rfl⟩ : ∃ f, fuel = f + 1 := ⟨fuel - 1, by simp at hfuel; omega⟩
    obtain ⟨b, hb, hseg⟩ := seg_next_some heap l [] tl _ hs.2
    have hrec : mm_malloc_scan heap size f b = some (Scan.grow tl) :=
      ih b f hseg (fun x hx => hno x (List.mem_cons_of_mem _ hx))
        (by simp at hfuel; omega)
    have hna : ¬ fits heap size a0 := hno a0 (List.mem_cons_self _ _)
    unfold mm_malloc_scan
    rw [hb]
    by_cases hf : (heap a0).free = false
    · simp [hf, hrec]
    · have hf2 : (heap a0).free = true := by simpa using hf
      have hsz : ¬ size ≤ (heap a0).size := fun hle => hna ⟨hf2, hle⟩
      simp [hf2, hsz, hrec]

theorem metadata_init_fail (h : Nat) (s : State) (new_size : Nat) (prev : Option Nat)
    (hfail : (sbrk s new_size).2 = none) : metadata_init h s new_size prev = (s, none) := by
  unfold sbrk at hfail
  unfold metadata_init sbrk
  by_cases hle : s.brk + new_size ≤ s.limit
  · simp [hle] at hfail
  · simp [hle]

theorem growth_fails (h size fuel : Nat) (s : State) (l : List Nat)
    (hsize : 0 < size) (hl : Ledger s l) (hno : ∀ a ∈ l, ¬ fits s.heap size a)
    (hfuel : l.length ≤ fuel) (hfail : (sbrk s (h + size)).2 = none) :
    mm_malloc h fuel s size = some (s, none) := by
  have hsz : size ≠ 0 := by omega
  unfold mm_malloc
  rcases List.eq_nil_or_concat l with hnil | ⟨l0, tl, hcat⟩
  · subst hnil
    have hfirst : s.first_metadata = none := hl
    simp only [hsz, if_false, hfirst, metadata_init_fail h s _ _ hfail]
    cases s
    simp_all
  · rw [List.concat_eq_append] at hcat
    subst hcat
    obtain ⟨a0, ha0, hseg⟩ : ∃ a0, s.first_metadata = some a0 ∧
        Seg s.heap (some a0) (l0 ++ [tl]) none := by
      obtain ⟨b, hb, hseg⟩ := seg_next_some s.heap l0 [] tl _ hl
      exact ⟨b, hb, hseg⟩
    have hscan := scan_grow s.heap size l0 tl a0 fuel hseg (by simpa using hno)
      (by simp at hfuel; omega)
    simp only [hsz, if_false, ha0, hscan, metadata_init_fail h s _ _ hfail]

/-- C9: when no header of the ledger can serve `size > 0` bytes, so that
`mm_malloc(size)` asks `sbrk` for more memory, and `sbrk` fails, the call
returns `NULL` and the state (every header, `first_metadata`, the break) is
exactly the one before the call.  The ledger may be empty. -/
theorem mm_malloc_growth_failure (h size fuel : Nat) (s : State) (l : List Nat)
    (hsize : 0 < size) (hl : Ledger s l) (hno : ∀ a ∈ l, ¬ fits s.heap size a)
    (hfuel : l.length ≤ fuel) (hfail : (sbrk s (h + size)).2 = none) :
    mm_malloc h fuel s size = some (s, none) :=
  growth_fails h size fuel s l hsize hl hno hfuel hfail

theorem demo_full_ledger : Ledger demo_full [409600, 409840] := ⟨rfl, rfl, rfl⟩

/-- C9 at `demo_full`: no record can serve 300 bytes, `sbrk(340)` fails, and
`mm_malloc(300)` returns `NULL` in the same state. -/
theorem mm_malloc_growth_failure_witness :
    (sbrk demo_full (40 + 300)).2 = none ∧
    mm_malloc 40 2 demo_full 300 = some (demo_full, none) :=
  ⟨by decide,
    mm_malloc_growth_failure 40 300 2 demo_full [409600, 409840] (by decide)
      demo_full_ledger
      (by
        intro a ha
        simp only [List.mem_cons, List.mem_singleton, List.not_mem_nil, or_false] at ha
        rcases ha with rfl | rfl <;> simp [fits, demo_full, demo])
      (by decide) (by decide)⟩

end MmAlloc
